import Mathlib

/-!
Verification of the BlueZ Broadcast Audio Scan Service (BASS) state machine
(src/shared/bass.c, src/shared/bass.h) and of the ATT transport rules that the
specification states for this repository.

Byte buffers are modelled as `List Nat` (each element one octet); an `iovec`
cursor is modelled as the list of bytes not yet consumed.  Multi-byte integers
are little-endian, as in the C helpers `get_le24`/`get_le32` and the
little-endian memory layout assumed by `util_iov_push_mem` on the fields it
copies.  Fallible C functions (returning NULL or -1) become `Option`-valued
definitions.
-/

namespace Bass

/-! ## Constants from src/shared/bass.h -/

def NUM_BCAST_RECV_STATES : Nat := 2

def BT_BASS_BCAST_CODE_SIZE : Nat := 16

def BT_BASS_BCAST_SRC_LEN : Nat := 15

def BT_BASS_BCAST_SRC_SUBGROUP_LEN : Nat := 5

/-- Application error code Opcode Not Supported (bass.h). -/
def BT_BASS_ERROR_OPCODE_NOT_SUPPORTED : Nat := 0x80

/-- Application error code Invalid Source ID (bass.h). -/
def BT_BASS_ERROR_INVALID_SOURCE_ID : Nat := 0x81

/-- BIG_Encryption value meaning a bad broadcast code (bass.h). -/
def BT_BASS_BIG_ENC_STATE_BAD_CODE : Nat := 0x03

def BT_BASS_REMOTE_SCAN_STOPPED : Nat := 0x00

def BT_BASS_REMOTE_SCAN_STARTED : Nat := 0x01

def BT_BASS_ADD_SRC : Nat := 0x02

def BT_BASS_MOD_SRC : Nat := 0x03

def BT_BASS_SET_BCAST_CODE : Nat := 0x04

def BT_BASS_REMOVE_SRC : Nat := 0x05

/-- ATT Write Request opcode (shared/att-types.h, standard ATT opcode 0x12). -/
def BT_ATT_OP_WRITE_REQ : Nat := 0x12

/-- ATT Write Command opcode (shared/att-types.h, standard ATT opcode 0x52). -/
def BT_ATT_OP_WRITE_CMD : Nat := 0x52

/-- ATT error code Write Request Rejected (shared/att-types.h, value 0xFC). -/
def BT_ERROR_WRITE_REQUEST_REJECTED : Nat := 0xFC

/-- Size of a `bdaddr_t` Bluetooth device address, 6 octets. -/
def BDADDR_SIZE : Nat := 6

/-! ## iovec pull/push helpers (src/shared/util.c)

`util_iov_pull_mem(iov, n)` returns a pointer to the next `n` bytes and
advances the iovec, or NULL when fewer than `n` bytes remain.  Here it returns
the pulled bytes together with the advanced cursor. -/

def util_iov_pull_mem (iov : List Nat) (n : Nat) : Option (List Nat × List Nat) :=
  if n ≤ iov.length then some (iov.take n, iov.drop n) else none

/-- One-byte `util_iov_pull_mem(iov, sizeof(uint8_t))`, returning the byte value. -/
def pullByte (iov : List Nat) : Option (Nat × List Nat) :=
  match iov with
  | [] => none
  | b :: rest => some (b, rest)

/-- `util_iov_push_mem` appends bytes at the end of the buffer being built. -/
def util_iov_push_mem (iov : List Nat) (data : List Nat) : List Nat :=
  iov ++ data

/-- Little-endian decoding of a byte list (least significant byte first). -/
def decLe (bs : List Nat) : Nat :=
  bs.foldr (fun b acc => b + 256 * acc) 0

/-- Little-endian encoding of `x` on `n` bytes. -/
def encLe : Nat → Nat → List Nat
  | 0, _ => []
  | n + 1, x => x % 256 :: encLe n (x / 256)

/-- `get_le24` reads three little-endian bytes (src/shared/util.h). -/
def get_le24 (bs : List Nat) : Nat :=
  decLe (bs.take 3)

/-- `get_le32` reads four little-endian bytes (src/shared/util.h). -/
def get_le32 (bs : List Nat) : Nat :=
  decLe (bs.take 4)

/-! ## Data model (src/shared/bass.h)

`struct bt_bass_subgroup_data` and `struct bt_bcast_src`.  The `meta_len`
field always equals the length of the `meta` buffer, so only the buffer is
kept; `num_subgroups` is the length of `subgroup_data`.  The `bap` and `attr`
back-pointers are connection identity, kept outside the record (the tracked
collection below keys records by their attribute). -/

structure bt_bass_subgroup_data where
  bis_sync : Nat
  meta : List Nat
deriving DecidableEq

structure bt_bcast_src where
  id : Nat
  addr_type : Nat
  addr : List Nat
  sid : Nat
  bid : Nat
  sync_state : Nat
  enc : Nat
  bad_code : List Nat
  subgroup_data : List bt_bass_subgroup_data
deriving DecidableEq

/-- Representation invariant of `struct bt_bass_subgroup_data`: `bis_sync` is a
uint32, `meta_len` a uint8 and `meta` a byte buffer. -/
def subgroup_wf (s : bt_bass_subgroup_data) : Prop :=
  s.bis_sync < 2 ^ 32 ∧ s.meta.length < 256 ∧ ∀ b ∈ s.meta, b < 256

/-- Representation invariant of `struct bt_bcast_src`: every field fits its C
type (uint8 fields, 6-byte `bdaddr_t`, 24-bit broadcast id, 16-byte broadcast
code, uint8 subgroup count). -/
def bcast_src_wf (b : bt_bcast_src) : Prop :=
  b.id < 256 ∧ b.addr_type < 256 ∧
  b.addr.length = BDADDR_SIZE ∧ (∀ x ∈ b.addr, x < 256) ∧
  b.sid < 256 ∧ b.bid < 2 ^ 24 ∧ b.sync_state < 256 ∧ b.enc < 256 ∧
  b.bad_code.length = BT_BASS_BCAST_CODE_SIZE ∧ (∀ x ∈ b.bad_code, x < 256) ∧
  b.subgroup_data.length < 256 ∧ ∀ s ∈ b.subgroup_data, subgroup_wf s

instance : DecidablePred subgroup_wf := fun s => by
  unfold subgroup_wf; infer_instance

instance : DecidablePred bcast_src_wf := fun b => by
  unfold bcast_src_wf; infer_instance

/-! ## Parsing a Broadcast Receive State value
(`bass_build_bcast_src_from_notif`, src/shared/bass.c lines 46-227)

The C function fills a caller-supplied `struct bt_bcast_src` and returns 0, or
returns -1 leaving the struct untouched when the buffer is too short.  Here
the parser returns the parsed record together with the unconsumed bytes
(`none` models the -1 return), and `bass_notif_apply` below reinstates the
in-place-update contract. -/

def parse_subgroup_data : Nat → List Nat → Option (List bt_bass_subgroup_data × List Nat)
  | 0, iov => some ([], iov)
  | n + 1, iov =>
    match util_iov_pull_mem iov 4 with
    | none => none
    | some (bis_sync_state, iov) =>
      match pullByte iov with
      | none => none
      | some (meta_len, iov) =>
        match util_iov_pull_mem iov meta_len with
        | none => none
        | some (meta, iov) =>
          match parse_subgroup_data n iov with
          | none => none
          | some (rest, iov) =>
            some ({ bis_sync := get_le32 bis_sync_state, meta := meta } :: rest, iov)

def bass_build_bcast_src_from_notif (value : List Nat) :
    Option (bt_bcast_src × List Nat) :=
  match pullByte value with
  | none => none
  | some (id, iov) =>
  match pullByte iov with
  | none => none
  | some (addr_type, iov) =>
  match util_iov_pull_mem iov BDADDR_SIZE with
  | none => none
  | some (addr, iov) =>
  match pullByte iov with
  | none => none
  | some (sid, iov) =>
  match util_iov_pull_mem iov 3 with
  | none => none
  | some (bid, iov) =>
  match pullByte iov with
  | none => none
  | some (pa_sync_state, iov) =>
  match pullByte iov with
  | none => none
  | some (enc, iov) =>
  match (if enc = BT_BASS_BIG_ENC_STATE_BAD_CODE then
          util_iov_pull_mem iov BT_BASS_BCAST_CODE_SIZE
        else some ([], iov)) with
  | none => none
  | some (bad_code, iov) =>
  match pullByte iov with
  | none => none
  | some (num_subgroups, iov) =>
  match parse_subgroup_data num_subgroups iov with
  | none => none
  | some (subgroup_data, iov) =>
    some ({ id := id, addr_type := addr_type, addr := addr, sid := sid,
            bid := get_le24 bid, sync_state := pa_sync_state, enc := enc,
            bad_code := if enc = BT_BASS_BIG_ENC_STATE_BAD_CODE then bad_code
                        else List.replicate BT_BASS_BCAST_CODE_SIZE 0,
            subgroup_data := subgroup_data }, iov)

/-- `bass_build_bcast_src_from_read_rsp` just calls the notification parser
(src/shared/bass.c lines 229-234). -/
def bass_build_bcast_src_from_read_rsp (value : List Nat) :
    Option (bt_bcast_src × List Nat) :=
  bass_build_bcast_src_from_notif value

/-- In-place contract of the C parser: on success the record is replaced
field-by-field, on failure it is returned untouched together with `false`. -/
def bass_notif_apply (bcast_src : bt_bcast_src) (value : List Nat) :
    bt_bcast_src × Bool :=
  match bass_build_bcast_src_from_notif value with
  | none => (bcast_src, false)
  | some (r, _) => (r, true)

/-! ## Serializing a Broadcast Receive State value
(`bass_build_notif_from_bcast_src`, src/shared/bass.c lines 236-309) -/

/-- Per-subgroup bytes pushed by the serializer: 32-bit `bis_sync`, one-byte
`meta_len`, then the metadata. -/
def subgroup_notif (s : bt_bass_subgroup_data) : List Nat :=
  encLe 4 s.bis_sync ++ [s.meta.length % 256] ++ s.meta

def bass_build_notif_from_bcast_src (b : bt_bcast_src) : List Nat :=
  [b.id % 256, b.addr_type % 256] ++ b.addr ++ [b.sid % 256] ++ encLe 3 b.bid ++
  [b.sync_state % 256, b.enc % 256] ++
  (if b.enc = BT_BASS_BIG_ENC_STATE_BAD_CODE then b.bad_code else []) ++
  [b.subgroup_data.length % 256] ++
  (b.subgroup_data.map subgroup_notif).flatten

/-- `bass_build_read_rsp_from_bcast_src` just calls the notification builder
(src/shared/bass.c lines 311-316). -/
def bass_build_read_rsp_from_bcast_src (b : bt_bcast_src) : List Nat :=
  bass_build_notif_from_bcast_src b

/-! ## Control-point command length validation
(`bass_check_cp_command_subgroup_data_len` and `bass_check_cp_command_len`,
src/shared/bass.c lines 318-411)

The C helpers advance the iovec in place and return a bool; here success
carries the advanced cursor. -/

def bass_check_cp_command_subgroup_data_len :
    Nat → List Nat → Option (List Nat)
  | 0, iov => some iov
  | n + 1, iov =>
    match util_iov_pull_mem iov 4 with
    | none => none
    | some (_, iov) =>
      match pullByte iov with
      | none => none
      | some (meta_len, iov) =>
        match util_iov_pull_mem iov meta_len with
        | none => none
        | some (_, iov) => bass_check_cp_command_subgroup_data_len n iov

/-- Fixed (non-flexible-array) size of `struct bt_bass_add_src_params`:
addr_type(1) + addr(6) + sid(1) + bid(3) + pa_sync(1) + pa_interval(2) +
num_subgroups(1); the last byte is `num_subgroups`. -/
def ADD_SRC_PARAMS_SIZE : Nat := 15

/-- Fixed size of `struct bt_bass_mod_src_params`: id(1) + pa_sync(1) +
pa_interval(2) + num_subgroups(1); the last byte is `num_subgroups`. -/
def MOD_SRC_PARAMS_SIZE : Nat := 5

/-- Size of `struct bt_bass_set_bcast_code_params`: id(1) + bcast_code(16). -/
def SET_BCAST_CODE_PARAMS_SIZE : Nat := 17

/-- Size of `struct bt_bass_remove_src_params`: id(1). -/
def REMOVE_SRC_PARAMS_SIZE : Nat := 1

def bass_check_cp_command_len (value : List Nat) : Bool :=
  match pullByte value with
  | none => false
  | some (op, iov) =>
    if op = BT_BASS_ADD_SRC then
      match util_iov_pull_mem iov ADD_SRC_PARAMS_SIZE with
      | none => false
      | some (params, iov) =>
        match bass_check_cp_command_subgroup_data_len (params.getD 14 0) iov with
        | none => false
        | some iov => iov.length = 0
    else if op = BT_BASS_MOD_SRC then
      match util_iov_pull_mem iov MOD_SRC_PARAMS_SIZE with
      | none => false
      | some (params, iov) =>
        match bass_check_cp_command_subgroup_data_len (params.getD 4 0) iov with
        | none => false
        | some iov => iov.length = 0
    else if op = BT_BASS_SET_BCAST_CODE then
      match util_iov_pull_mem iov SET_BCAST_CODE_PARAMS_SIZE with
      | none => false
      | some (_, iov) => iov.length = 0
    else if op = BT_BASS_REMOVE_SRC then
      match util_iov_pull_mem iov REMOVE_SRC_PARAMS_SIZE with
      | none => false
      | some (_, iov) => iov.length = 0
    else if op = BT_BASS_REMOTE_SCAN_STOPPED ∨ op = BT_BASS_REMOTE_SCAN_STARTED then
      iov.length = 0
    else
      true

/-! ## Control-point write handler
(`bass_bcast_audio_scan_cp_write`, src/shared/bass.c lines 413-436)

The handler's only observable effects are the ATT result it reports through
`gatt_db_attribute_write_result` (modelled as `Option Nat`, `none` when the
handler returns without reporting any result) and the tracked broadcast-source
collection, which it never touches (the opcode handlers are an explicit TODO
stub that reports Opcode Not Supported for every length-valid command). -/

def bass_bcast_audio_scan_cp_write (srcs : List bt_bcast_src) (value : List Nat)
    (opcode : Nat) : List bt_bcast_src × Option Nat :=
  if ¬ bass_check_cp_command_len value then
    if opcode = BT_ATT_OP_WRITE_REQ then
      (srcs, some BT_ERROR_WRITE_REQUEST_REJECTED)
    else
      (srcs, none)
  else
    (srcs, some BT_BASS_ERROR_OPCODE_NOT_SUPPORTED)

/-! ## Client-side tracked broadcast sources
(`read_bcast_recv_state` lines 553-577 and `bcast_recv_state_notify`
lines 579-612 of src/shared/bass.c)

The queue `bap->rdb->bass_bcast_srcs` is modelled as a list of records keyed
by the GATT attribute of their Broadcast Receive State characteristic
(`bass_src_match_attrib` compares that attribute); attributes are names,
modelled as `Nat`. -/

def read_bcast_recv_state (q : List (Nat × bt_bcast_src)) (attr : Nat)
    (success : Bool) (value : List Nat) : List (Nat × bt_bcast_src) :=
  if success = false then q
  else if value.length = 0 then q.eraseP (fun e => e.1 == attr)
  else
    match bass_build_bcast_src_from_read_rsp value with
    | none => q.eraseP (fun e => e.1 == attr)
    | some (r, _) => q.map (fun e => if e.1 = attr then (attr, r) else e)

def bcast_recv_state_notify (q : List (Nat × bt_bcast_src)) (attr : Nat)
    (value : List Nat) : List (Nat × bt_bcast_src) :=
  match q.find? (fun e => e.1 == attr) with
  | some _ =>
    match bass_build_bcast_src_from_notif value with
    | none => q
    | some (r, _) => q.map (fun e => if e.1 = attr then (attr, r) else e)
  | none =>
    match bass_build_bcast_src_from_notif value with
    | none => q
    | some (r, _) => q ++ [(attr, r)]

end Bass

namespace Att

/-! ## ATT transport rules stated by the specification

The ATT transport implementation (src/shared/att.c, src/shared/gatt-server.c)
is not part of this repository snapshot; only its callers and the unit-test
PDU transcripts (unit/test-micp.c) are.  The definitions in this namespace are
therefore modelled from the specification's words. -/

/-- Modelled from the spec: default ATT MTU before Exchange-MTU, 23 bytes. -/
def BT_ATT_DEFAULT_LE_MTU : Nat := 23

/-- ATT Exchange MTU Request opcode. -/
def BT_ATT_OP_MTU_REQ : Nat := 0x02

/-- ATT Exchange MTU Response opcode. -/
def BT_ATT_OP_MTU_RSP : Nat := 0x03

/-- Modelled from the spec: per-connection ATT server MTU state, with the
server's maximum MTU capability and the currently negotiated MTU (the
implementation in src/shared/att.c is missing from the repository snapshot). -/
structure AttServer where
  server_mtu : Nat
  mtu : Nat
deriving DecidableEq

/-- Exchange MTU Request PDU: opcode 0x02 then the 16-bit client MTU,
little-endian. -/
def exchange_mtu_req_pdu (client_mtu : Nat) : List Nat :=
  BT_ATT_OP_MTU_REQ :: Bass.encLe 2 client_mtu

/-- Modelled from the spec: the server's Exchange-MTU handling.  "Server MTU
response uses min(client_mtu, server_max_mtu)"; the response PDU is opcode
0x03 followed by the 16-bit response MTU and the negotiated MTU becomes that
value.  A PDU that is not a 3-byte Exchange MTU Request is not handled. -/
def att_exchange_mtu_server (s : AttServer) (pdu : List Nat) :
    Option (AttServer × List Nat) :=
  match pdu with
  | [op, b0, b1] =>
    if op = BT_ATT_OP_MTU_REQ then
      let client_mtu := Bass.decLe [b0, b1]
      let rsp_mtu := min client_mtu s.server_mtu
      some ({ s with mtu := rsp_mtu }, BT_ATT_OP_MTU_RSP :: Bass.encLe 2 rsp_mtu)
    else none
  | _ => none

/-- Modelled from the spec: per-connection ATT client request state.
`pending` holds the outstanding client-initiated request ids ("exactly one
request may be outstanding per connection"), `sent` logs every PDU
transmitted on the channel (src/shared/att.c is missing from the repository
snapshot). -/
structure AttConn where
  pending : List Nat
  sent : List (List Nat)
  next_id : Nat
deriving DecidableEq

def att_conn_init : AttConn :=
  { pending := [], sent := [], next_id := 1 }

/-- Modelled from the spec: `send_request` "fails immediately (no
transmission) if a request is already outstanding on this connection";
otherwise it transmits the PDU and returns the new request id. -/
def send_request (c : AttConn) (pdu : List Nat) : AttConn × Option Nat :=
  if c.pending = [] then
    ({ pending := [c.next_id], sent := c.sent ++ [pdu], next_id := c.next_id + 1 },
      some c.next_id)
  else
    (c, none)

/-- Modelled from the spec: a response or error PDU completes the matching
outstanding request. -/
def handle_response (c : AttConn) : AttConn :=
  { c with pending := [] }

/-- Modelled from the spec: `send_command` is fire-and-forget, it transmits
without creating an outstanding request. -/
def send_command (c : AttConn) (pdu : List Nat) : AttConn :=
  { c with sent := c.sent ++ [pdu] }

/-- Operations a caller or the peer can perform on the connection. -/
inductive AttOp where
  | request : List Nat → AttOp
  | response : AttOp
  | command : List Nat → AttOp
deriving DecidableEq

def att_step (c : AttConn) : AttOp → AttConn
  | AttOp.request pdu => (send_request c pdu).1
  | AttOp.response => handle_response c
  | AttOp.command pdu => send_command c pdu

def att_run (ops : List AttOp) : AttConn :=
  ops.foldl att_step att_conn_init

end Att

namespace Bass

/-! ## Sample records used by the concrete witnesses -/

/-- A tracked source with one subgroup, unencrypted, zeroed bad code. -/
def src_sample : bt_bcast_src :=
  { id := 1, addr_type := 1, addr := [0x11, 0x22, 0x33, 0x44, 0x55, 0x66],
    sid := 2, bid := 0xABCDEF, sync_state := 2, enc := 0,
    bad_code := List.replicate 16 0,
    subgroup_data := [{ bis_sync := 3, meta := [7, 8, 9] }] }

/-- A source in the bad-code encryption state, with a nonzero stored code. -/
def src_sample_bad : bt_bcast_src :=
  { id := 2, addr_type := 0, addr := [1, 2, 3, 4, 5, 6],
    sid := 5, bid := 0x123456, sync_state := 3, enc := 3,
    bad_code := [1, 2, 3, 4, 5, 6, 7, 8, 9, 10, 11, 12, 13, 14, 15, 16],
    subgroup_data := [] }

/-- A source with zero subgroups. -/
def src_zero_subgroups : bt_bcast_src :=
  { id := 3, addr_type := 1, addr := [9, 9, 9, 9, 9, 9],
    sid := 0, bid := 0, sync_state := 0, enc := 2,
    bad_code := List.replicate 16 0,
    subgroup_data := [] }

/-- A source whose subgroup synchronizes to all 31 BIS indices
(BIS_Sync bits 0-30). -/
def src_max_bis : bt_bcast_src :=
  { id := 4, addr_type := 0, addr := [6, 5, 4, 3, 2, 1],
    sid := 15, bid := 0xFFFFFF, sync_state := 2, enc := 1,
    bad_code := List.replicate 16 0,
    subgroup_data := [{ bis_sync := 0x7FFFFFFF, meta := [] },
                      { bis_sync := 0x55555555, meta := [1] }] }

end Bass

namespace Bass

/-! ## Helper lemmas about the iovec and little-endian primitives -/

theorem pullByte_some {v : List Nat} {b : Nat} {rest : List Nat}
    (h : pullByte v = some (b, rest)) : v = b :: rest := by
  cases v with
  | nil => exact absurd h (by simp [pullByte])
  | cons a t =>
    simp only [pullByte, Option.some.injEq, Prod.mk.injEq] at h
    simp [h.1, h.2]

theorem util_iov_pull_mem_exact {l₁ : List Nat} {n : Nat} (h : l₁.length = n)
    (l₂ : List Nat) : util_iov_pull_mem (l₁ ++ l₂) n = some (l₁, l₂) := by
  subst h
  unfold util_iov_pull_mem
  rw [if_pos (by simp)]
  rw [List.take_left, List.drop_left]

theorem util_iov_pull_mem_extend {v l rest : List Nat} {n : Nat} (w : List Nat)
    (h : util_iov_pull_mem v n = some (l, rest)) :
    util_iov_pull_mem (v ++ w) n = some (l, rest ++ w) := by
  unfold util_iov_pull_mem at h ⊢
  split at h
  case isTrue hn =>
    simp only [Option.some.injEq, Prod.mk.injEq] at h
    obtain ⟨hl, hr⟩ := h
    subst hl hr
    rw [if_pos (by simp; omega)]
    rw [List.take_append_of_le_length hn, List.drop_append_of_le_length hn]
  case isFalse => exact absurd h (by simp)

theorem util_iov_pull_mem_length {v l rest : List Nat} {n : Nat}
    (h : util_iov_pull_mem v n = some (l, rest)) :
    l.length = n ∧ v.length = n + rest.length := by
  unfold util_iov_pull_mem at h
  split at h
  case isTrue hn =>
    simp only [Option.some.injEq, Prod.mk.injEq] at h
    obtain ⟨hl, hr⟩ := h
    subst hl hr
    constructor
    · simp [List.length_take]; omega
    · simp [List.length_drop]; omega
  case isFalse => exact absurd h (by simp)

theorem encLe_length (n x : Nat) : (encLe n x).length = n := by
  induction n generalizing x with
  | zero => rfl
  | succ n ih => simp [encLe, ih]

theorem decLe_encLe (n x : Nat) : decLe (encLe n x) = x % 256 ^ n := by
  induction n generalizing x with
  | zero => simp [encLe, decLe, Nat.mod_one]
  | succ n ih =>
    simp only [encLe, decLe, List.foldr_cons]
    have : decLe (encLe n (x / 256)) = x / 256 % 256 ^ n := ih (x / 256)
    simp only [decLe] at this
    rw [this, pow_succ, mul_comm (256 ^ n) 256, Nat.mod_mul]

theorem get_le24_encLe {x : Nat} (h : x < 2 ^ 24) : get_le24 (encLe 3 x) = x := by
  unfold get_le24
  rw [show (encLe 3 x).take 3 = encLe 3 x from by
        rw [show (3 : Nat) = (encLe 3 x).length from (encLe_length 3 x).symm]
        exact List.take_length _]
  rw [decLe_encLe]
  exact Nat.mod_eq_of_lt (by norm_num at h ⊢; omega)

theorem get_le32_encLe {x : Nat} (h : x < 2 ^ 32) : get_le32 (encLe 4 x) = x := by
  unfold get_le32
  rw [show (encLe 4 x).take 4 = encLe 4 x from by
        rw [show (4 : Nat) = (encLe 4 x).length from (encLe_length 4 x).symm]
        exact List.take_length _]
  rw [decLe_encLe]
  exact Nat.mod_eq_of_lt (by norm_num at h ⊢; omega)

theorem util_iov_pull_mem_self (l₁ l₂ : List Nat) :
    util_iov_pull_mem (l₁ ++ l₂) l₁.length = some (l₁, l₂) :=
  util_iov_pull_mem_exact rfl l₂

/-! ## Completeness: parsing a serialized record -/

theorem parse_subgroup_data_serialize :
    ∀ l : List bt_bass_subgroup_data, (∀ s ∈ l, subgroup_wf s) →
      ∀ rest : List Nat,
        parse_subgroup_data l.length ((l.map subgroup_notif).flatten ++ rest) =
          some (l, rest) := by
  intro l
  induction l with
  | nil => intro _ rest; simp [parse_subgroup_data]
  | cons s t ih =>
    intro h rest
    have hs : subgroup_wf s := h s (by simp)
    have ht : ∀ x ∈ t, subgroup_wf x := fun x hx => h x (by simp [hx])
    obtain ⟨hb, hm, _⟩ := hs
    have hml : s.meta.length % 256 = s.meta.length := Nat.mod_eq_of_lt hm
    simp only [List.length_cons, List.map_cons, List.flatten_cons,
      subgroup_notif, List.append_assoc, List.singleton_append, List.cons_append,
      List.nil_append]
    simp only [parse_subgroup_data,
      util_iov_pull_mem_exact (encLe_length 4 s.bis_sync), pullByte, hml,
      util_iov_pull_mem_self, ih ht, get_le32_encLe hb, List.nil_append]

theorem bass_parse_serialize (b : bt_bcast_src) (h : bcast_src_wf b)
    (rest : List Nat) :
    bass_build_bcast_src_from_notif (bass_build_notif_from_bcast_src b ++ rest) =
      some ({ b with bad_code :=
                if b.enc = BT_BASS_BIG_ENC_STATE_BAD_CODE then b.bad_code
                else List.replicate BT_BASS_BCAST_CODE_SIZE 0 }, rest) := by
  obtain ⟨h1, h2, h3, _, h5, h6, h7, h8, h9, _, h11, h12⟩ := h
  have e1 : b.id % 256 = b.id := Nat.mod_eq_of_lt h1
  have e2 : b.addr_type % 256 = b.addr_type := Nat.mod_eq_of_lt h2
  have e5 : b.sid % 256 = b.sid := Nat.mod_eq_of_lt h5
  have e7 : b.sync_state % 256 = b.sync_state := Nat.mod_eq_of_lt h7
  have e8 : b.enc % 256 = b.enc := Nat.mod_eq_of_lt h8
  have e11 : b.subgroup_data.length % 256 = b.subgroup_data.length :=
    Nat.mod_eq_of_lt h11
  simp only [bass_build_notif_from_bcast_src, bass_build_bcast_src_from_notif,
    List.append_assoc, List.cons_append, List.singleton_append, List.nil_append,
    e1, e2, e5, e7, e8, e11, pullByte, util_iov_pull_mem_exact h3,
    util_iov_pull_mem_exact (encLe_length 3 b.bid), get_le24_encLe h6]
  by_cases henc : b.enc = BT_BASS_BIG_ENC_STATE_BAD_CODE
  · simp only [if_pos henc, util_iov_pull_mem_exact h9, pullByte,
      List.nil_append, parse_subgroup_data_serialize b.subgroup_data h12,
      get_le24_encLe h6]
  · simp only [if_neg henc, pullByte, List.nil_append,
      parse_subgroup_data_serialize b.subgroup_data h12, get_le24_encLe h6]

/-! ## Decomposition of a successful parse: prefix stability, exact
consumed length, and the bad-code zeroing invariant -/

theorem parse_subgroup_data_decomp :
    ∀ {n : Nat} {v : List Nat} {l : List bt_bass_subgroup_data} {rest : List Nat},
      parse_subgroup_data n v = some (l, rest) →
      (∀ w, parse_subgroup_data n (v ++ w) = some (l, rest ++ w)) ∧
      l.length = n ∧
      v.length =
        (l.map (fun s => BT_BASS_BCAST_SRC_SUBGROUP_LEN + s.meta.length)).sum +
          rest.length := by
  intro n
  induction n with
  | zero =>
    intro v l rest h
    simp only [parse_subgroup_data, Option.some.injEq, Prod.mk.injEq] at h
    obtain ⟨hl, hr⟩ := h
    subst hl; subst hr
    exact ⟨fun w => by simp [parse_subgroup_data], rfl, by simp⟩
  | succ n ih =>
    intro v l rest h
    simp only [parse_subgroup_data] at h
    cases h4 : util_iov_pull_mem v 4 with
    | none => simp only [h4] at h; exact Option.noConfusion h
    | some p =>
      obtain ⟨bs, iov1⟩ := p
      simp only [h4] at h
      cases h5 : pullByte iov1 with
      | none => simp only [h5] at h; exact Option.noConfusion h
      | some p =>
        obtain ⟨ml, iov2⟩ := p
        simp only [h5] at h
        cases h6 : util_iov_pull_mem iov2 ml with
        | none => simp only [h6] at h; exact Option.noConfusion h
        | some p =>
          obtain ⟨meta, iov3⟩ := p
          simp only [h6] at h
          cases h7 : parse_subgroup_data n iov3 with
          | none => simp only [h7] at h; exact Option.noConfusion h
          | some p =>
            obtain ⟨tl, iov4⟩ := p
            simp only [h7, Option.some.injEq, Prod.mk.injEq] at h
            obtain ⟨hl, hr⟩ := h
            subst hl; subst hr
            obtain ⟨hext, hlen, hcons⟩ := ih h7
            have h4l := util_iov_pull_mem_length h4
            have h6l := util_iov_pull_mem_length h6
            have h5v := pullByte_some h5
            refine ⟨?_, by simp [hlen], ?_⟩
            · intro w
              simp only [parse_subgroup_data, util_iov_pull_mem_extend w h4,
                h5v, List.cons_append, pullByte,
                util_iov_pull_mem_extend w h6, hext w]
            · have h5l : iov1.length = iov2.length + 1 := by rw [h5v]; simp
              have hm : meta.length = ml := h6l.1
              simp only [BT_BASS_BCAST_SRC_SUBGROUP_LEN] at hcons ⊢
              simp only [List.map_cons, List.sum_cons]
              omega

theorem bass_parse_decomp {v : List Nat} {r : bt_bcast_src} {rest : List Nat}
    (h : bass_build_bcast_src_from_notif v = some (r, rest)) :
    (∀ w, bass_build_bcast_src_from_notif (v ++ w) = some (r, rest ++ w)) ∧
    v.length = rest.length + BT_BASS_BCAST_SRC_LEN +
      (if r.enc = BT_BASS_BIG_ENC_STATE_BAD_CODE then BT_BASS_BCAST_CODE_SIZE
       else 0) +
      (r.subgroup_data.map
        (fun s => BT_BASS_BCAST_SRC_SUBGROUP_LEN + s.meta.length)).sum ∧
    (r.enc ≠ BT_BASS_BIG_ENC_STATE_BAD_CODE →
      r.bad_code = List.replicate BT_BASS_BCAST_CODE_SIZE 0) := by
  unfold bass_build_bcast_src_from_notif at h
  cases p1 : pullByte v with
  | none => simp only [p1] at h; exact Option.noConfusion h
  | some q =>
  obtain ⟨id, iov1⟩ := q
  simp only [p1] at h
  cases p2 : pullByte iov1 with
  | none => simp only [p2] at h; exact Option.noConfusion h
  | some q =>
  obtain ⟨addr_type, iov2⟩ := q
  simp only [p2] at h
  cases p3 : util_iov_pull_mem iov2 BDADDR_SIZE with
  | none => simp only [p3] at h; exact Option.noConfusion h
  | some q =>
  obtain ⟨addr, iov3⟩ := q
  simp only [p3] at h
  cases p4 : pullByte iov3 with
  | none => simp only [p4] at h; exact Option.noConfusion h
  | some q =>
  obtain ⟨sid, iov4⟩ := q
  simp only [p4] at h
  cases p5 : util_iov_pull_mem iov4 3 with
  | none => simp only [p5] at h; exact Option.noConfusion h
  | some q =>
  obtain ⟨bid, iov5⟩ := q
  simp only [p5] at h
  cases p6 : pullByte iov5 with
  | none => simp only [p6] at h; exact Option.noConfusion h
  | some q =>
  obtain ⟨pa_sync_state, iov6⟩ := q
  simp only [p6] at h
  cases p7 : pullByte iov6 with
  | none => simp only [p7] at h; exact Option.noConfusion h
  | some q =>
  obtain ⟨enc, iov7⟩ := q
  simp only [p7] at h
  cases p8 : (if enc = BT_BASS_BIG_ENC_STATE_BAD_CODE then
        util_iov_pull_mem iov7 BT_BASS_BCAST_CODE_SIZE
      else some ([], iov7)) with
  | none => simp only [p8] at h; exact Option.noConfusion h
  | some q =>
  obtain ⟨bad_code, iov8⟩ := q
  simp only [p8] at h
  cases p9 : pullByte iov8 with
  | none => simp only [p9] at h; exact Option.noConfusion h
  | some q =>
  obtain ⟨num_subgroups, iov9⟩ := q
  simp only [p9] at h
  cases p10 : parse_subgroup_data num_subgroups iov9 with
  | none => simp only [p10] at h; exact Option.noConfusion h
  | some q =>
  obtain ⟨subgroup_data, iov10⟩ := q
  simp only [p10, Option.some.injEq, Prod.mk.injEq] at h
  obtain ⟨hr, hrest⟩ := h
  subst hrest
  obtain ⟨sg_ext, sg_len, sg_cons⟩ := parse_subgroup_data_decomp p10
  have p8_ext : ∀ w,
      (if enc = BT_BASS_BIG_ENC_STATE_BAD_CODE then
        util_iov_pull_mem (iov7 ++ w) BT_BASS_BCAST_CODE_SIZE
      else some ([], iov7 ++ w)) = some (bad_code, iov8 ++ w) := by
    intro w
    by_cases henc : enc = BT_BASS_BIG_ENC_STATE_BAD_CODE
    · rw [if_pos henc] at p8 ⊢
      exact util_iov_pull_mem_extend w p8
    · rw [if_neg henc] at p8 ⊢
      simp only [Option.some.injEq, Prod.mk.injEq] at p8
      simp [p8.1, p8.2]
  have p8_len : iov7.length =
      (if enc = BT_BASS_BIG_ENC_STATE_BAD_CODE then BT_BASS_BCAST_CODE_SIZE
       else 0) + iov8.length := by
    by_cases henc : enc = BT_BASS_BIG_ENC_STATE_BAD_CODE
    · rw [if_pos henc] at p8 ⊢
      exact (util_iov_pull_mem_length p8).2
    · rw [if_neg henc] at p8 ⊢
      simp only [Option.some.injEq, Prod.mk.injEq] at p8
      simp [p8.2]
  subst hr
  refine ⟨?_, ?_, ?_⟩
  · intro w
    unfold bass_build_bcast_src_from_notif
    simp only [pullByte_some p1, pullByte_some p2, pullByte_some p4,
      pullByte_some p6, pullByte_some p7, pullByte_some p9, List.cons_append,
      pullByte, util_iov_pull_mem_extend w p3, util_iov_pull_mem_extend w p5,
      p8_ext w, sg_ext w]
  · have l1 : v.length = iov1.length + 1 := by rw [pullByte_some p1]; simp
    have l2 : iov1.length = iov2.length + 1 := by rw [pullByte_some p2]; simp
    have l3 := (util_iov_pull_mem_length p3).2
    have l4 : iov3.length = iov4.length + 1 := by rw [pullByte_some p4]; simp
    have l5 := (util_iov_pull_mem_length p5).2
    have l6 : iov5.length = iov6.length + 1 := by rw [pullByte_some p6]; simp
    have l7 : iov6.length = iov7.length + 1 := by rw [pullByte_some p7]; simp
    have l9 : iov8.length = iov9.length + 1 := by rw [pullByte_some p9]; simp
    dsimp only
    simp only [BT_BASS_BCAST_SRC_LEN, BDADDR_SIZE] at l3 ⊢
    simp only [BT_BASS_BCAST_CODE_SIZE] at p8_len ⊢
    simp only [BT_BASS_BCAST_SRC_SUBGROUP_LEN] at sg_cons ⊢
    omega
  · intro hneq
    dsimp only at hneq ⊢
    rw [if_neg hneq]

/-! ## Shape and length of the serialized value -/

theorem subgroup_notif_flatten_length (l : List bt_bass_subgroup_data) :
    ((l.map subgroup_notif).flatten).length =
      (l.map (fun s => BT_BASS_BCAST_SRC_SUBGROUP_LEN + s.meta.length)).sum := by
  induction l with
  | nil => simp
  | cons s t ih =>
    simp [subgroup_notif, encLe_length, ih, BT_BASS_BCAST_SRC_SUBGROUP_LEN]
    omega

theorem bass_notif_length (b : bt_bcast_src) (h3 : b.addr.length = BDADDR_SIZE)
    (h9 : b.bad_code.length = BT_BASS_BCAST_CODE_SIZE) :
    (bass_build_notif_from_bcast_src b).length =
      BT_BASS_BCAST_SRC_LEN +
      (if b.enc = BT_BASS_BIG_ENC_STATE_BAD_CODE then BT_BASS_BCAST_CODE_SIZE
       else 0) +
      (b.subgroup_data.map
        (fun s => BT_BASS_BCAST_SRC_SUBGROUP_LEN + s.meta.length)).sum := by
  by_cases henc : b.enc = BT_BASS_BIG_ENC_STATE_BAD_CODE
  · simp only [bass_build_notif_from_bcast_src, List.length_append,
      List.length_cons, List.length_nil, encLe_length, h3, h9,
      subgroup_notif_flatten_length, if_pos henc, BDADDR_SIZE,
      BT_BASS_BCAST_CODE_SIZE, BT_BASS_BCAST_SRC_LEN]
  · simp only [bass_build_notif_from_bcast_src, List.length_append,
      List.length_cons, List.length_nil, encLe_length, h3, h9,
      subgroup_notif_flatten_length, if_neg henc, BDADDR_SIZE,
      BT_BASS_BCAST_CODE_SIZE, BT_BASS_BCAST_SRC_LEN]

theorem bass_notif_decomposition (b : bt_bcast_src) :
    bass_build_notif_from_bcast_src b =
      ([b.id % 256, b.addr_type % 256] ++ b.addr ++ [b.sid % 256] ++
        encLe 3 b.bid ++ [b.sync_state % 256, b.enc % 256]) ++
      ((if b.enc = BT_BASS_BIG_ENC_STATE_BAD_CODE then b.bad_code else []) ++
        (b.subgroup_data.length % 256 ::
          (b.subgroup_data.map subgroup_notif).flatten)) := by
  simp [bass_build_notif_from_bcast_src, List.append_assoc]

theorem bass_notif_drop_14 (b : bt_bcast_src) (h3 : b.addr.length = BDADDR_SIZE) :
    (bass_build_notif_from_bcast_src b).drop 14 =
      (if b.enc = BT_BASS_BIG_ENC_STATE_BAD_CODE then b.bad_code else []) ++
        (b.subgroup_data.length % 256 ::
          (b.subgroup_data.map subgroup_notif).flatten) := by
  have hF : ([b.id % 256, b.addr_type % 256] ++ b.addr ++ [b.sid % 256] ++
      encLe 3 b.bid ++ [b.sync_state % 256, b.enc % 256]).length = 14 := by
    simp [h3, BDADDR_SIZE, encLe_length]
  rw [bass_notif_decomposition b]
  rw [show (14 : Nat) = ([b.id % 256, b.addr_type % 256] ++ b.addr ++
      [b.sid % 256] ++ encLe 3 b.bid ++
      [b.sync_state % 256, b.enc % 256]).length from hF.symm]
  exact List.drop_left _ _

/-! ## Removal by key from the tracked-source queue -/

theorem eraseP_key_gone :
    ∀ (q : List (Nat × bt_bcast_src)) (a : Nat),
      (q.map Prod.fst).Nodup →
      ∀ e ∈ q.eraseP (fun x => x.1 == a), e.1 ≠ a := by
  intro q
  induction q with
  | nil => intro a _ e he; simp [List.eraseP] at he
  | cons x t ih =>
    intro a hnd e he
    simp only [List.map_cons, List.nodup_cons] at hnd
    obtain ⟨hx, hnd2⟩ := hnd
    cases hb : (x.1 == a) with
    | true =>
      rw [List.eraseP_cons_of_pos (p := fun e : Nat × bt_bcast_src => e.1 == a) hb] at he
      have hxa : x.1 = a := by simpa using hb
      intro hea
      exact hx (by rw [hxa, ← hea]; exact List.mem_map_of_mem Prod.fst he)
    | false =>
      rw [List.eraseP_cons_of_neg (p := fun e : Nat × bt_bcast_src => e.1 == a) (by simp [hb])] at he
      rcases List.mem_cons.mp he with hex | het
      · subst hex; simpa using hb
      · exact ih a hnd2 e het

end Bass

namespace Att

/-! ## Invariant preservation for the modelled ATT connection -/

theorem att_step_pending (c : AttConn) (o : AttOp)
    (hc : c.pending.length ≤ 1) : (att_step c o).pending.length ≤ 1 := by
  cases o with
  | request pdu =>
    simp only [att_step, send_request]
    split
    · simp
    · exact hc
  | response => simp [att_step, handle_response]
  | command pdu => simpa [att_step, send_command] using hc

theorem att_foldl_pending :
    ∀ (ops : List AttOp) (c : AttConn), c.pending.length ≤ 1 →
      (List.foldl att_step c ops).pending.length ≤ 1 := by
  intro ops
  induction ops with
  | nil => intro c hc; exact hc
  | cons o t ih => intro c hc; exact ih _ (att_step_pending c o hc)

end Att

open Bass Att

/-- C1: a Broadcast Audio Scan control-point write whose payload fails the
exact per-opcode length check (one header byte, the opcode's fixed
parameters, and for add-source/modify-source the per-subgroup sections,
consumed exactly) causes no change to the tracked-source state; an ATT Write
Request is answered with Write Request Rejected while any other write opcode
gets no response at all.  In particular a Set-Broadcast-Code command whose
parameter section is not exactly 17 bytes (1 source id + 16 code bytes) fails
the check. -/
theorem c1_cp_length_mismatch_rejected (srcs : List bt_bcast_src)
    (v : List Nat) (h : bass_check_cp_command_len v = false) :
    bass_bcast_audio_scan_cp_write srcs v BT_ATT_OP_WRITE_REQ =
        (srcs, some BT_ERROR_WRITE_REQUEST_REJECTED) ∧
    (∀ op, op ≠ BT_ATT_OP_WRITE_REQ →
      bass_bcast_audio_scan_cp_write srcs v op = (srcs, none)) ∧
    (∀ rest : List Nat, rest.length ≠ SET_BCAST_CODE_PARAMS_SIZE →
      bass_check_cp_command_len (BT_BASS_SET_BCAST_CODE :: rest) = false) := by
  refine ⟨?_, ?_, ?_⟩
  · simp [bass_bcast_audio_scan_cp_write, h]
  · intro op hop
    simp [bass_bcast_audio_scan_cp_write, h, hop]
  · intro rest hlen
    simp only [bass_check_cp_command_len, pullByte]
    rw [if_neg (by decide : ¬(BT_BASS_SET_BCAST_CODE = BT_BASS_ADD_SRC)),
        if_neg (by decide : ¬(BT_BASS_SET_BCAST_CODE = BT_BASS_MOD_SRC))]
    simp only [if_true]
    cases hp : util_iov_pull_mem rest SET_BCAST_CODE_PARAMS_SIZE with
    | none => simp only [hp]
    | some p =>
      obtain ⟨params, iov⟩ := p
      simp only [hp]
      have hlen2 := (util_iov_pull_mem_length hp).2
      simp only [SET_BCAST_CODE_PARAMS_SIZE] at hlen2 hlen
      simp only [decide_eq_false_iff_not]
      omega

/-- C1 witness: the 16-byte Set-Broadcast-Code payload of the scenario is
rejected with Write Request Rejected on a Write Request, silently dropped on
a Write Command, and the tracked source (with its stored broadcast code) is
untouched. -/
theorem c1_witness :
    bass_check_cp_command_len
        (BT_BASS_SET_BCAST_CODE :: List.replicate 16 0) = false ∧
    bass_bcast_audio_scan_cp_write [src_sample_bad]
        (BT_BASS_SET_BCAST_CODE :: List.replicate 16 0) BT_ATT_OP_WRITE_REQ =
      ([src_sample_bad], some BT_ERROR_WRITE_REQUEST_REJECTED) ∧
    bass_bcast_audio_scan_cp_write [src_sample_bad]
        (BT_BASS_SET_BCAST_CODE :: List.replicate 16 0) BT_ATT_OP_WRITE_CMD =
      ([src_sample_bad], none) :=
  ⟨by decide,
   (c1_cp_length_mismatch_rejected [src_sample_bad] _ (by decide)).1,
   (c1_cp_length_mismatch_rejected [src_sample_bad] _ (by decide)).2.1
     BT_ATT_OP_WRITE_CMD (by decide)⟩

/-- C2: serializing any well-formed broadcast-source record with the
notification/read-response builder and parsing the result with the
notification parser consumes the whole buffer and reproduces every field of
the record: source id, address type, address, advertising SID, 24-bit
broadcast id, sync state, encryption state and the whole subgroup list
(BIS sync bitmask and metadata of every subgroup); the stored bad code is
also reproduced whenever the encryption state is the bad-code state. -/
theorem c2_notif_roundtrip (b : bt_bcast_src) (h : bcast_src_wf b) :
    ∃ r : bt_bcast_src,
      bass_build_bcast_src_from_notif (bass_build_notif_from_bcast_src b) =
        some (r, []) ∧
      r.id = b.id ∧ r.addr_type = b.addr_type ∧ r.addr = b.addr ∧
      r.sid = b.sid ∧ r.bid = b.bid ∧ r.sync_state = b.sync_state ∧
      r.enc = b.enc ∧ r.subgroup_data = b.subgroup_data ∧
      (b.enc = BT_BASS_BIG_ENC_STATE_BAD_CODE → r.bad_code = b.bad_code) := by
  have hp := bass_parse_serialize b h []
  rw [List.append_nil] at hp
  exact ⟨_, hp, rfl, rfl, rfl, rfl, rfl, rfl, rfl, rfl, fun he => by simp [he]⟩

/-- C2 witness: the round trip at the zero-subgroup edge case and at a
two-subgroup record whose first subgroup synchronizes to all 31 BIS
indices. -/
theorem c2_witness :
    (bcast_src_wf src_zero_subgroups ∧
      ∃ r : bt_bcast_src,
        bass_build_bcast_src_from_notif
            (bass_build_notif_from_bcast_src src_zero_subgroups) =
          some (r, []) ∧
        r.id = src_zero_subgroups.id ∧
        r.addr_type = src_zero_subgroups.addr_type ∧
        r.addr = src_zero_subgroups.addr ∧ r.sid = src_zero_subgroups.sid ∧
        r.bid = src_zero_subgroups.bid ∧
        r.sync_state = src_zero_subgroups.sync_state ∧
        r.enc = src_zero_subgroups.enc ∧
        r.subgroup_data = src_zero_subgroups.subgroup_data ∧
        (src_zero_subgroups.enc = BT_BASS_BIG_ENC_STATE_BAD_CODE →
          r.bad_code = src_zero_subgroups.bad_code)) ∧
    (bcast_src_wf src_max_bis ∧
      ∃ r : bt_bcast_src,
        bass_build_bcast_src_from_notif
            (bass_build_notif_from_bcast_src src_max_bis) =
          some (r, []) ∧
        r.id = src_max_bis.id ∧ r.addr_type = src_max_bis.addr_type ∧
        r.addr = src_max_bis.addr ∧ r.sid = src_max_bis.sid ∧
        r.bid = src_max_bis.bid ∧ r.sync_state = src_max_bis.sync_state ∧
        r.enc = src_max_bis.enc ∧
        r.subgroup_data = src_max_bis.subgroup_data ∧
        (src_max_bis.enc = BT_BASS_BIG_ENC_STATE_BAD_CODE →
          r.bad_code = src_max_bis.bad_code)) :=
  ⟨⟨by decide, c2_notif_roundtrip src_zero_subgroups (by decide)⟩,
   ⟨by decide, c2_notif_roundtrip src_max_bis (by decide)⟩⟩

/-- C3: parsing any strict prefix of a serialized Broadcast Receive State
record (a buffer truncated before the record is complete, wherever the cut
falls, including inside the subgroup list or the metadata) fails, and the
previously tracked record is returned with every stored field unchanged. -/
theorem c3_truncated_parse_rejected (old b : bt_bcast_src) (k : Nat)
    (h : bcast_src_wf b)
    (hk : k < (bass_build_notif_from_bcast_src b).length) :
    bass_notif_apply old ((bass_build_notif_from_bcast_src b).take k) =
      (old, false) := by
  have hnone : bass_build_bcast_src_from_notif
      ((bass_build_notif_from_bcast_src b).take k) = none := by
    cases hp : bass_build_bcast_src_from_notif
        ((bass_build_notif_from_bcast_src b).take k) with
    | none => rfl
    | some p =>
      obtain ⟨r, rest⟩ := p
      exfalso
      have hext := (bass_parse_decomp hp).1
        ((bass_build_notif_from_bcast_src b).drop k)
      rw [List.take_append_drop] at hext
      have hs := bass_parse_serialize b h []
      rw [List.append_nil] at hs
      rw [hs] at hext
      simp only [Option.some.injEq, Prod.mk.injEq] at hext
      have hdrop : (bass_build_notif_from_bcast_src b).drop k = [] :=
        (List.append_eq_nil.mp hext.2.symm).2
      have hlen := List.drop_eq_nil_iff.mp hdrop
      omega
  simp [bass_notif_apply, hnone]

/-- C3 witness: the serialization of a one-subgroup record is 23 bytes long;
cutting it to its first 20 bytes severs the subgroup metadata, the parse
fails and the previously tracked record is returned unchanged. -/
theorem c3_witness :
    bcast_src_wf src_sample ∧
    20 < (bass_build_notif_from_bcast_src src_sample).length ∧
    bass_notif_apply src_sample_bad
        ((bass_build_notif_from_bcast_src src_sample).take 20) =
      (src_sample_bad, false) :=
  ⟨by decide, by decide,
   c3_truncated_parse_rejected src_sample_bad src_sample 20 (by decide)
     (by decide)⟩

/-- C4: the control-point handler is a TODO stub; a length-valid
Remove-Source command referencing source id 7 while no source is tracked is
answered with Opcode Not Supported 0x80 and not with Invalid Source ID 0x81,
though the tracked-source collection is indeed left unchanged. -/
theorem c4_remove_src_unknown_id_response :
    bass_bcast_audio_scan_cp_write [] [BT_BASS_REMOVE_SRC, 7]
        BT_ATT_OP_WRITE_REQ =
      ([], some BT_BASS_ERROR_OPCODE_NOT_SUPPORTED) ∧
    BT_BASS_ERROR_OPCODE_NOT_SUPPORTED ≠ BT_BASS_ERROR_INVALID_SOURCE_ID := by
  decide

/-- C5 counterexample: a zero-length notification for a Broadcast Receive
State characteristic with a tracked record does not remove that record: the
collection is returned unchanged, with the record still present. -/
theorem c5_zero_length_notify_keeps_record :
    bcast_recv_state_notify [(1, src_sample)] 1 [] = [(1, src_sample)] ∧
    (1, src_sample) ∈ bcast_recv_state_notify [(1, src_sample)] 1 [] := by
  decide

/-- C5 amended: a zero-length read result destroys the tracked record keyed
to the characteristic (no record with that key remains in the collection),
but a zero-length notification leaves the collection exactly as it was: the
notification parser fails on the empty buffer and, because the record is not
newly allocated, nothing is removed. -/
theorem c5_zero_length_read_destroys (q : List (Nat × bt_bcast_src))
    (attr : Nat) (rec : bt_bcast_src) (_hq : (attr, rec) ∈ q)
    (hnd : (q.map Prod.fst).Nodup) :
    (∀ rec2 : bt_bcast_src,
      (attr, rec2) ∉ read_bcast_recv_state q attr true []) ∧
    bcast_recv_state_notify q attr [] = q := by
  constructor
  · intro rec2 hmem
    have hr : read_bcast_recv_state q attr true [] =
        q.eraseP (fun e => e.1 == attr) := by
      simp [read_bcast_recv_state]
    rw [hr] at hmem
    exact eraseP_key_gone q attr hnd (attr, rec2) hmem rfl
  · unfold bcast_recv_state_notify
    have hpe : bass_build_bcast_src_from_notif ([] : List Nat) = none := rfl
    cases hf : q.find? (fun e => e.1 == attr) with
    | none => simp only [hf, hpe]
    | some e => simp only [hf, hpe]

/-- C5 witness: with one tracked record keyed to attribute 1, a zero-length
read removes it while a zero-length notification leaves the collection
unchanged. -/
theorem c5_witness :
    (1, src_sample) ∈ [(1, src_sample)] ∧
    ([(1, src_sample)].map Prod.fst).Nodup ∧
    (1, src_sample) ∉ read_bcast_recv_state [(1, src_sample)] 1 true [] ∧
    bcast_recv_state_notify [(1, src_sample)] 1 [] = [(1, src_sample)] :=
  ⟨by decide, by decide,
   (c5_zero_length_read_destroys [(1, src_sample)] 1 src_sample (by decide)
       (by decide)).1 src_sample,
   (c5_zero_length_read_destroys [(1, src_sample)] 1 src_sample (by decide)
       (by decide)).2⟩

/-- C6: a serialized Broadcast Receive State record carries the 16-byte
broadcast (bad) code exactly when the encryption state is the bad-code
sentinel 0x03: its length is 15 fixed bytes plus 5 bytes and the metadata per
subgroup, plus 16 when and only when the encryption state is 0x03; with the
bad code present it sits right after the 14 header bytes, otherwise the
subgroup count follows immediately; and a successful parse consumes exactly
that many bytes, the extra 16 exactly when the parsed encryption byte is
0x03. -/
theorem c6_bad_code_field_conditional (b : bt_bcast_src) (v : List Nat)
    (r : bt_bcast_src) (rest : List Nat) (h : bcast_src_wf b)
    (hp : bass_build_bcast_src_from_notif v = some (r, rest)) :
    (bass_build_notif_from_bcast_src b).length =
        BT_BASS_BCAST_SRC_LEN +
        (if b.enc = BT_BASS_BIG_ENC_STATE_BAD_CODE then BT_BASS_BCAST_CODE_SIZE
         else 0) +
        (b.subgroup_data.map
          (fun s => BT_BASS_BCAST_SRC_SUBGROUP_LEN + s.meta.length)).sum ∧
    (b.enc = BT_BASS_BIG_ENC_STATE_BAD_CODE →
      ((bass_build_notif_from_bcast_src b).drop 14).take
          BT_BASS_BCAST_CODE_SIZE = b.bad_code) ∧
    (b.enc ≠ BT_BASS_BIG_ENC_STATE_BAD_CODE →
      ((bass_build_notif_from_bcast_src b).drop 14).take 1 =
        [b.subgroup_data.length]) ∧
    v.length = rest.length + BT_BASS_BCAST_SRC_LEN +
        (if r.enc = BT_BASS_BIG_ENC_STATE_BAD_CODE then BT_BASS_BCAST_CODE_SIZE
         else 0) +
        (r.subgroup_data.map
          (fun s => BT_BASS_BCAST_SRC_SUBGROUP_LEN + s.meta.length)).sum := by
  obtain ⟨h1, h2, h3, h4, h5, h6, h7, h8, h9, h10, h11, h12⟩ := h
  refine ⟨bass_notif_length b h3 h9, ?_, ?_, (bass_parse_decomp hp).2.1⟩
  · intro henc
    rw [bass_notif_drop_14 b h3, if_pos henc]
    rw [show BT_BASS_BCAST_CODE_SIZE = b.bad_code.length from h9.symm]
    exact List.take_left _ _
  · intro henc
    rw [bass_notif_drop_14 b h3, if_neg henc]
    simp [Nat.mod_eq_of_lt h11]

/-- C6 witness: instantiated at a bad-code record for the serializer side and
at the parse of a serialized one-subgroup unencrypted record for the parser
side. -/
theorem c6_witness :
    bcast_src_wf src_sample_bad ∧
    bass_build_bcast_src_from_notif
        (bass_build_notif_from_bcast_src src_sample) =
      some (src_sample, []) ∧
    ((bass_build_notif_from_bcast_src src_sample_bad).length =
        BT_BASS_BCAST_SRC_LEN +
        (if src_sample_bad.enc = BT_BASS_BIG_ENC_STATE_BAD_CODE then
          BT_BASS_BCAST_CODE_SIZE else 0) +
        (src_sample_bad.subgroup_data.map
          (fun s => BT_BASS_BCAST_SRC_SUBGROUP_LEN + s.meta.length)).sum ∧
      (src_sample_bad.enc = BT_BASS_BIG_ENC_STATE_BAD_CODE →
        ((bass_build_notif_from_bcast_src src_sample_bad).drop 14).take
            BT_BASS_BCAST_CODE_SIZE = src_sample_bad.bad_code) ∧
      (src_sample_bad.enc ≠ BT_BASS_BIG_ENC_STATE_BAD_CODE →
        ((bass_build_notif_from_bcast_src src_sample_bad).drop 14).take 1 =
          [src_sample_bad.subgroup_data.length]) ∧
      (bass_build_notif_from_bcast_src src_sample).length =
        ([] : List Nat).length + BT_BASS_BCAST_SRC_LEN +
        (if src_sample.enc = BT_BASS_BIG_ENC_STATE_BAD_CODE then
          BT_BASS_BCAST_CODE_SIZE else 0) +
        (src_sample.subgroup_data.map
          (fun s => BT_BASS_BCAST_SRC_SUBGROUP_LEN + s.meta.length)).sum) := by
  have hp : bass_build_bcast_src_from_notif
      (bass_build_notif_from_bcast_src src_sample) = some (src_sample, []) := by
    decide
  exact ⟨by decide, hp,
    c6_bad_code_field_conditional src_sample_bad _ src_sample [] (by decide) hp⟩

/-- C7: a control-point write whose opcode byte is none of the six defined
opcodes 0x00-0x05 is reported as Opcode Not Supported 0x80 by the handler,
whatever bytes follow the opcode and whatever the ATT write opcode was, and
the tracked-source state is unchanged. -/
theorem c7_unknown_opcode_not_supported (srcs : List bt_bcast_src) (op : Nat)
    (rest : List Nat) (attOp : Nat) (hop : 5 < op) :
    bass_bcast_audio_scan_cp_write srcs (op :: rest) attOp =
      (srcs, some BT_BASS_ERROR_OPCODE_NOT_SUPPORTED) := by
  have h2 : op ≠ BT_BASS_ADD_SRC := by simp only [BT_BASS_ADD_SRC]; omega
  have h3 : op ≠ BT_BASS_MOD_SRC := by simp only [BT_BASS_MOD_SRC]; omega
  have h4 : op ≠ BT_BASS_SET_BCAST_CODE := by
    simp only [BT_BASS_SET_BCAST_CODE]; omega
  have h5 : op ≠ BT_BASS_REMOVE_SRC := by simp only [BT_BASS_REMOVE_SRC]; omega
  have h0 : ¬(op = BT_BASS_REMOTE_SCAN_STOPPED ∨
      op = BT_BASS_REMOTE_SCAN_STARTED) := by
    simp only [BT_BASS_REMOTE_SCAN_STOPPED, BT_BASS_REMOTE_SCAN_STARTED]
    omega
  have hc : bass_check_cp_command_len (op :: rest) = true := by
    simp only [bass_check_cp_command_len, pullByte]
    rw [if_neg h2, if_neg h3, if_neg h4, if_neg h5, if_neg h0]
  simp [bass_bcast_audio_scan_cp_write, hc]

/-- C7 witness: opcode 0x06 with trailing payload bytes on a Write Request is
answered with 0x80 and the tracked source is untouched. -/
theorem c7_witness :
    (5 : Nat) < 6 ∧
    bass_bcast_audio_scan_cp_write [src_sample] (6 :: [1, 2, 3])
        BT_ATT_OP_WRITE_REQ =
      ([src_sample], some BT_BASS_ERROR_OPCODE_NOT_SUPPORTED) :=
  ⟨by decide,
   c7_unknown_opcode_not_supported [src_sample] 6 [1, 2, 3]
     BT_ATT_OP_WRITE_REQ (by decide)⟩

/-- C8: on the connection model built from the specification's words, every
reachable connection state has at most one outstanding client-initiated
request, and a second send_request issued while one is outstanding fails
synchronously, returning the connection unchanged with no PDU added to the
transmission log. -/
theorem c8_single_outstanding_request (ops : List AttOp) (c : AttConn)
    (pdu : List Nat) (h : c.pending ≠ []) :
    (att_run ops).pending.length ≤ 1 ∧ send_request c pdu = (c, none) := by
  constructor
  · exact att_foldl_pending ops att_conn_init (by simp [att_conn_init])
  · unfold send_request
    rw [if_neg h]

/-- C8 witness: after two back-to-back requests and a response at most one
request is pending, and a request on a busy connection fails without
transmitting. -/
theorem c8_witness :
    ({ pending := [7], sent := [], next_id := 8 } : AttConn).pending ≠ [] ∧
    (att_run [AttOp.request [1], AttOp.request [2],
        AttOp.response]).pending.length ≤ 1 ∧
    send_request { pending := [7], sent := [], next_id := 8 } [3] =
      ({ pending := [7], sent := [], next_id := 8 }, none) := by
  have hmain := c8_single_outstanding_request
    [AttOp.request [1], AttOp.request [2], AttOp.response]
    { pending := [7], sent := [], next_id := 8 } [3] (by decide)
  exact ⟨by decide, hmain.1, hmain.2⟩

/-- C9: on the server model built from the specification's words, an
Exchange-MTU request for any 16-bit client MTU is answered with an
Exchange-MTU response carrying min(client MTU, server max MTU), which
becomes the negotiated MTU; in particular a server with maximum MTU 64
receiving 0x02 0x40 0x00 answers 0x03 0x40 0x00 and negotiates MTU 64. -/
theorem c9_exchange_mtu_negotiation (srv : AttServer) (c : Nat)
    (hc : c < 2 ^ 16) :
    att_exchange_mtu_server srv (exchange_mtu_req_pdu c) =
      some ({ srv with mtu := min c srv.server_mtu },
        BT_ATT_OP_MTU_RSP :: encLe 2 (min c srv.server_mtu)) ∧
    att_exchange_mtu_server { server_mtu := 64, mtu := BT_ATT_DEFAULT_LE_MTU }
        [0x02, 0x40, 0x00] =
      some ({ server_mtu := 64, mtu := 64 }, [0x03, 0x40, 0x00]) := by
  constructor
  · have hdec : decLe [c % 256, c / 256 % 256] = c := by
      have hmm : c % (256 * 256) = c % 256 + 256 * (c / 256 % 256) :=
        Nat.mod_mul
      have hlt : c % (256 * 256) = c :=
        Nat.mod_eq_of_lt (by norm_num at hc ⊢; omega)
      simp only [decLe, List.foldr_cons, List.foldr_nil]
      omega
    show att_exchange_mtu_server srv
        [BT_ATT_OP_MTU_REQ, c % 256, c / 256 % 256] = _
    simp only [att_exchange_mtu_server, hdec, if_true]
  · decide

/-- C9 witness: the scenario itself, client MTU 64 against server maximum
64. -/
theorem c9_witness :
    (64 : Nat) < 2 ^ 16 ∧
    att_exchange_mtu_server { server_mtu := 64, mtu := BT_ATT_DEFAULT_LE_MTU }
        (exchange_mtu_req_pdu 64) =
      some ({ server_mtu := 64, mtu := min 64 64 },
        BT_ATT_OP_MTU_RSP :: encLe 2 (min 64 64)) :=
  ⟨by decide,
   (c9_exchange_mtu_negotiation
     { server_mtu := 64, mtu := BT_ATT_DEFAULT_LE_MTU } 64 (by decide)).1⟩

/-- C10: whenever the Broadcast Receive State parser succeeds and the parsed
encryption-state byte is not the bad-code sentinel 0x03, the stored bad-code
field of the resulting record is all zeros, whatever was stored before. -/
theorem c10_parser_zeroes_bad_code {v : List Nat} {r : bt_bcast_src}
    {rest : List Nat} (hp : bass_build_bcast_src_from_notif v = some (r, rest))
    (henc : r.enc ≠ BT_BASS_BIG_ENC_STATE_BAD_CODE) :
    r.bad_code = List.replicate BT_BASS_BCAST_CODE_SIZE 0 :=
  (bass_parse_decomp hp).2.2 henc

/-- C10 witness: parsing the serialization of an unencrypted record yields a
zeroed bad code. -/
theorem c10_witness :
    bass_build_bcast_src_from_notif
        (bass_build_notif_from_bcast_src src_sample) =
      some (src_sample, []) ∧
    src_sample.enc ≠ BT_BASS_BIG_ENC_STATE_BAD_CODE ∧
    src_sample.bad_code = List.replicate BT_BASS_BCAST_CODE_SIZE 0 := by
  have hp : bass_build_bcast_src_from_notif
      (bass_build_notif_from_bcast_src src_sample) = some (src_sample, []) := by
    decide
  exact ⟨hp, by decide, c10_parser_zeroes_bad_code hp (by decide)⟩
